import Mathlib

/-!
Verification development for the TkinterGraphingCalculator plotting pipeline.

The numeric state is embedded over `ℚ`; machine floats are modelled as exact
rationals.  Each definition is a direct translation of the corresponding
function in `plot_manager.py`, `view_manager.py`, `event_handlers.py` and the
constants in `constants.py`.  The sympy compiler (`parse_expr`/`lambdify`) is
an external library and is abstracted as an explicit `Compiler` parameter; the
compiled evaluator is a function that either fails as a whole call or returns
one numeric result (finite, infinite, or complex) per sample point.
-/

namespace GraphingCalculator

/-! ## constants.py -/

def DEFAULT_MIN_VALUE : ℚ := -10
def DEFAULT_MAX_VALUE : ℚ := 10
def MOVEMENT_STEP : ℚ := 2
def ZOOM_STEP : ℚ := 2
def SCROLL_ZOOM_FACTOR : ℚ := 1/10
def PLOT_RESOLUTION : ℚ := 1/100
def CACHE_RESOLUTION_FACTOR : ℚ := 2
def MIN_CACHE_RANGE : ℚ := 50

/-! ## View window state (the DoubleVars x_min, x_max, y_min, y_max) -/

structure ViewWindow where
  x_min : ℚ
  x_max : ℚ
  y_min : ℚ
  y_max : ℚ
deriving DecidableEq, Repr

/-- The invariant the spec demands of every view mutation. -/
def validWindow (w : ViewWindow) : Prop :=
  w.x_min < w.x_max ∧ w.y_min < w.y_max

/-- `view_manager.move_view`: shift all four bounds. -/
def move_view (w : ViewWindow) (dx dy : ℚ) : ViewWindow :=
  { x_min := w.x_min + dx, x_max := w.x_max + dx
    y_min := w.y_min + dy, y_max := w.y_max + dy }

/-- The candidate window `view_manager.zoom_in` computes before its guard. -/
def zoom_in_candidate (w : ViewWindow) : ViewWindow :=
  { x_min := w.x_min + ZOOM_STEP, x_max := w.x_max - ZOOM_STEP
    y_min := w.y_min + ZOOM_STEP, y_max := w.y_max - ZOOM_STEP }

/-- `view_manager.zoom_in`.  The boolean records whether the window was
    updated and a forced redraw issued. -/
def zoom_in (w : ViewWindow) : ViewWindow × Bool :=
  if w.x_max > ZOOM_STEP then
    let n := zoom_in_candidate w
    if (n.x_max - n.x_min) > 1/10 ∧ (n.y_max - n.y_min) > 1/10 then
      (n, true)
    else (w, false)
  else (w, false)

/-- `view_manager.zoom_out`. -/
def zoom_out (w : ViewWindow) : ViewWindow :=
  { x_min := w.x_min - ZOOM_STEP, x_max := w.x_max + ZOOM_STEP
    y_min := w.y_min - ZOOM_STEP, y_max := w.y_max + ZOOM_STEP }

/-- `view_manager.reset_view`. -/
def reset_view : ViewWindow :=
  { x_min := DEFAULT_MIN_VALUE, x_max := DEFAULT_MAX_VALUE
    y_min := DEFAULT_MIN_VALUE, y_max := DEFAULT_MAX_VALUE }

/-- The candidate window `event_handlers.on_scroll_wheel` computes before its
    guard: `scrollUp` selects the sign of the zoom factor, `rx`/`ry` are the
    mouse ratios before clamping. -/
def scroll_candidate (w : ViewWindow) (scrollUp : Bool) (rx ry : ℚ) : ViewWindow :=
  let zoom_factor := if scrollUp then -SCROLL_ZOOM_FACTOR else SCROLL_ZOOM_FACTOR
  let x_zoom := (w.x_max - w.x_min) * zoom_factor
  let y_zoom := (w.y_max - w.y_min) * zoom_factor
  let mx := max 0 (min 1 rx)
  let my := max 0 (min 1 ry)
  { x_min := w.x_min + x_zoom * mx
    x_max := w.x_max - x_zoom * (1 - mx)
    y_min := w.y_min + y_zoom * my
    y_max := w.y_max - y_zoom * (1 - my) }

/-- `event_handlers.on_scroll_wheel`: zoom only when an expression is present,
    and only when the candidate ranges stay above the 0.1 floor. -/
def on_scroll_wheel (funcStr : String) (w : ViewWindow) (scrollUp : Bool)
    (rx ry : ℚ) : ViewWindow :=
  if funcStr.trim = "" then w
  else
    let n := scroll_candidate w scrollUp rx ry
    if (n.x_max - n.x_min) > 1/10 ∧ (n.y_max - n.y_min) > 1/10 then n
    else w

/-! ## Theorems for the view window claims -/

/-- Claim C4: every view-mutating operation (pan via `move_view`, `zoom_in`,
    `zoom_out`, scroll-wheel zoom, reset) applied to a window with
    `x_max > x_min` and `y_max > y_min` yields a window that still satisfies
    both inequalities, and a zoom whose candidate window would have an x- or
    y-range `≤ 0.1` is rejected, leaving the window identical to its previous
    value. -/
theorem view_window_invariant (w : ViewWindow) (dx dy rx ry : ℚ)
    (fs : String) (up : Bool)
    (hx : w.x_min < w.x_max) (hy : w.y_min < w.y_max) :
    validWindow (move_view w dx dy) ∧
    validWindow (zoom_in w).1 ∧
    validWindow (zoom_out w) ∧
    validWindow reset_view ∧
    validWindow (on_scroll_wheel fs w up rx ry) ∧
    (¬ (((zoom_in_candidate w).x_max - (zoom_in_candidate w).x_min) > 1/10 ∧
        ((zoom_in_candidate w).y_max - (zoom_in_candidate w).y_min) > 1/10) →
      (zoom_in w).1 = w) ∧
    (¬ (((scroll_candidate w up rx ry).x_max - (scroll_candidate w up rx ry).x_min) > 1/10 ∧
        ((scroll_candidate w up rx ry).y_max - (scroll_candidate w up rx ry).y_min) > 1/10) →
      on_scroll_wheel fs w up rx ry = w) := by
  refine ⟨⟨by simp [move_view]; linarith, by simp [move_view]; linarith⟩, ?_, ?_, ?_, ?_, ?_, ?_⟩
  · unfold zoom_in
    split
    · dsimp only
      split
      · rename_i hguard
        constructor
        · have := hguard.1
          simp only [zoom_in_candidate] at this ⊢
          linarith
        · have := hguard.2
          simp only [zoom_in_candidate] at this ⊢
          linarith
      · exact ⟨hx, hy⟩
    · exact ⟨hx, hy⟩
  · exact ⟨by simp [zoom_out, ZOOM_STEP]; linarith, by simp [zoom_out, ZOOM_STEP]; linarith⟩
  · exact ⟨by norm_num [reset_view, validWindow, DEFAULT_MIN_VALUE, DEFAULT_MAX_VALUE],
      by norm_num [reset_view, validWindow, DEFAULT_MIN_VALUE, DEFAULT_MAX_VALUE]⟩
  · unfold on_scroll_wheel
    split
    · exact ⟨hx, hy⟩
    · dsimp only
      split
      · rename_i hguard
        exact ⟨by linarith [hguard.1], by linarith [hguard.2]⟩
      · exact ⟨hx, hy⟩
  · intro hrej
    unfold zoom_in
    split
    · dsimp only
      rw [if_neg hrej]
    · rfl
  · intro hrej
    unfold on_scroll_wheel
    split
    · rfl
    · dsimp only
      rw [if_neg hrej]

/-- Witness for C4 at a concrete window and inputs. -/
theorem view_window_invariant_witness :
    validWindow (move_view ⟨-10, 10, -10, 10⟩ 2 0) ∧
    validWindow (zoom_in ⟨-10, 10, -10, 10⟩).1 ∧
    validWindow (zoom_out ⟨-10, 10, -10, 10⟩) ∧
    validWindow reset_view ∧
    validWindow (on_scroll_wheel "x" ⟨-10, 10, -10, 10⟩ true (1/2) (1/2)) ∧
    (¬ (((zoom_in_candidate ⟨-10, 10, -10, 10⟩).x_max - (zoom_in_candidate ⟨-10, 10, -10, 10⟩).x_min) > 1/10 ∧
        ((zoom_in_candidate ⟨-10, 10, -10, 10⟩).y_max - (zoom_in_candidate ⟨-10, 10, -10, 10⟩).y_min) > 1/10) →
      (zoom_in ⟨-10, 10, -10, 10⟩).1 = ⟨-10, 10, -10, 10⟩) ∧
    (¬ (((scroll_candidate ⟨-10, 10, -10, 10⟩ true (1/2) (1/2)).x_max - (scroll_candidate ⟨-10, 10, -10, 10⟩ true (1/2) (1/2)).x_min) > 1/10 ∧
        ((scroll_candidate ⟨-10, 10, -10, 10⟩ true (1/2) (1/2)).y_max - (scroll_candidate ⟨-10, 10, -10, 10⟩ true (1/2) (1/2)).y_min) > 1/10) →
      on_scroll_wheel "x" ⟨-10, 10, -10, 10⟩ true (1/2) (1/2) = ⟨-10, 10, -10, 10⟩) :=
  view_window_invariant ⟨-10, 10, -10, 10⟩ 2 0 (1/2) (1/2) "x" true
    (by norm_num) (by norm_num)

/-- Claim C10: `zoom_in` leaves the window unchanged and issues no redraw
    whenever `x_max ≤ 2.0` (the `ZOOM_STEP` constant), regardless of how large
    the x- and y-extents are. -/
theorem zoom_in_noop_of_x_max_le (w : ViewWindow) (h : w.x_max ≤ 2) :
    zoom_in w = (w, false) := by
  unfold zoom_in
  rw [if_neg]
  simp only [ZOOM_STEP, not_lt]
  exact h

/-- Witness for C10: a window with huge extents but `x_max = 2` is untouched. -/
theorem zoom_in_noop_of_x_max_le_witness :
    zoom_in ⟨-1000, 2, -1000, 1000⟩ = (⟨-1000, 2, -1000, 1000⟩, false) :=
  zoom_in_noop_of_x_max_le ⟨-1000, 2, -1000, 1000⟩ (by norm_num)

/-! ## Sampler / evaluator (`plot_manager.safe_function_evaluation`)

A lambdified evaluator produces, per sample point, a finite real, an infinite
value, or a complex value; a whole call may also fail with an exception
(`none`).  Missing outputs (NaN) are `Option.none`. -/

inductive NumVal where
  | fin (q : ℚ)
  | inf
  | cplx (re im : ℚ)
deriving DecidableEq, Repr

/-- A compiled (lambdified) function: vectorized evaluation that either fails
    as a whole call or yields one `NumVal` per input. -/
def CompiledFn : Type := List ℚ → Option (List NumVal)

/-- The imaginary-part tolerance `1e-10` in `safe_function_evaluation`. -/
def IMAG_TOL : ℚ := 1/10^10

/-- Per-point sanitization of `safe_function_evaluation`: complex results keep
    the real part unless the imaginary magnitude exceeds the tolerance;
    infinite results become missing. -/
def sanitizeVal : NumVal → Option ℚ
  | .cplx re im => if |im| > IMAG_TOL then none else some re
  | .inf => none
  | .fin q => some q

/-- `plot_manager.safe_function_evaluation`: a failed whole call degrades to an
    all-missing array of the input's length; otherwise each point is
    sanitized. -/
def safe_function_evaluation (func : CompiledFn) (x_values : List ℚ) :
    List (Option ℚ) :=
  match func x_values with
  | some y_values => y_values.map sanitizeVal
  | none => List.replicate x_values.length none

/-- Claim C2: `safe_function_evaluation` is total; a whole-call failure yields
    an all-missing array of the same length as the input, and per point an
    infinite result is missing, a complex result with imaginary magnitude over
    `1e-10` is missing, and any other complex result keeps its real part. -/
theorem sampler_total_and_sanitizing (func : CompiledFn) (xs : List ℚ) :
    (func xs = none →
      safe_function_evaluation func xs = List.replicate xs.length none ∧
      (safe_function_evaluation func xs).length = xs.length) ∧
    (∀ ys, func xs = some ys →
      safe_function_evaluation func xs = ys.map sanitizeVal) ∧
    sanitizeVal .inf = none ∧
    (∀ re im, |im| > 1/10^10 → sanitizeVal (.cplx re im) = none) ∧
    (∀ re im, ¬ |im| > 1/10^10 → sanitizeVal (.cplx re im) = some re) := by
  refine ⟨?_, ?_, rfl, ?_, ?_⟩
  · intro h
    unfold safe_function_evaluation
    rw [h]
    exact ⟨rfl, by simp⟩
  · intro ys h
    unfold safe_function_evaluation
    rw [h]
  · intro re im h
    simp only [sanitizeVal]
    rw [if_pos (show |im| > IMAG_TOL from h)]
  · intro re im h
    simp only [sanitizeVal]
    rw [if_neg (show ¬ |im| > IMAG_TOL from h)]

/-- Witness for C2 at a failing evaluator, and at concrete complex and
    infinite sample values. -/
theorem sampler_total_and_sanitizing_witness :
    (safe_function_evaluation (fun _ => none) [0, 1, 2] = [none, none, none] ∧
      (safe_function_evaluation (fun _ => none) [0, 1, 2]).length = 3) ∧
    safe_function_evaluation (fun xs => some (xs.map fun _ => NumVal.cplx 3 1)) [0, 1] =
      [none, none] ∧
    sanitizeVal .inf = none ∧
    sanitizeVal (.cplx 5 (1/10^11)) = some 5 := by
  have h := sampler_total_and_sanitizing (fun _ => none) [0, 1, 2]
  have h2 := sampler_total_and_sanitizing
    (fun xs => some (xs.map fun _ => NumVal.cplx 3 1)) [0, 1]
  refine ⟨h.1 rfl, ?_, h.2.2.1, ?_⟩
  · rw [h2.2.1 _ rfl]
    have hc := h2.2.2.2.1 3 1 (by rw [abs_one]; norm_num)
    simp [hc]
  · exact h2.2.2.2.2 5 (1/10^11)
      (by rw [abs_of_nonneg (by norm_num : (0:ℚ) ≤ 1/10^11)]; norm_num)

/-! ## Render filter decimation (`plot_manager.decimate`)

Python's `x[::step]` is embedded as `everyNth` (fuel-structured so that the
kernel can evaluate it): keep the head, drop the next `step - 1` elements,
repeat. -/

def everyNthAux {α : Type} : ℕ → List α → ℕ → List α
  | 0, _, _ => []
  | _ + 1, [], _ => []
  | fuel + 1, a :: rest, k => a :: everyNthAux fuel (rest.drop (k - 1)) k

/-- `l[::k]` for a stride `k ≥ 1`. -/
def everyNth {α : Type} (l : List α) (k : ℕ) : List α :=
  everyNthAux l.length l k

/-- `plot_manager.decimate`: pass short inputs through unchanged, otherwise
    stride-sample with `step = max 1 (len / width_px)` (floor division). -/
def decimate (x y : List ℚ) (width_px : ℕ) : List ℚ × List ℚ :=
  if x.length ≤ width_px then (x, y)
  else
    let step := max 1 (x.length / width_px)
    (everyNth x step, everyNth y step)

theorem everyNthAux_sublist {α : Type} :
    ∀ (fuel : ℕ) (l : List α) (k : ℕ), List.Sublist (everyNthAux fuel l k) l := by
  intro fuel
  induction fuel with
  | zero => intro l k; exact List.nil_sublist l
  | succ m ih =>
    intro l k
    cases l with
    | nil => exact List.Sublist.refl []
    | cons a rest =>
      exact List.Sublist.cons₂ a ((ih (rest.drop (k - 1)) k).trans (List.drop_sublist _ rest))

theorem everyNth_sublist {α : Type} (l : List α) (k : ℕ) :
    List.Sublist (everyNth l k) l :=
  everyNthAux_sublist l.length l k

theorem everyNthAux_length {α : Type} :
    ∀ (fuel : ℕ) (l : List α) (k : ℕ), l.length ≤ fuel → 1 ≤ k →
      (everyNthAux fuel l k).length = (l.length + k - 1) / k := by
  intro fuel
  induction fuel with
  | zero =>
    intro l k hl hk
    rw [List.length_eq_zero.mp (Nat.le_zero.mp hl)]
    simp only [everyNthAux, List.length_nil, Nat.zero_add]
    exact (Nat.div_eq_of_lt (by omega)).symm
  | succ m ih =>
    intro l k hl hk
    cases l with
    | nil =>
      simp only [everyNthAux, List.length_nil, Nat.zero_add]
      exact (Nat.div_eq_of_lt (by omega)).symm
    | cons a rest =>
      have hdrop : (rest.drop (k - 1)).length ≤ m := by
        simp only [List.length_drop]
        simp only [List.length_cons] at hl
        omega
      simp only [everyNthAux, List.length_cons]
      rw [ih (rest.drop (k - 1)) k hdrop hk]
      simp only [List.length_drop]
      have h3 : rest.length + 1 + k - 1 = rest.length + k := by omega
      rw [h3, Nat.add_div_right _ (by omega)]
      rcases Nat.lt_or_ge rest.length (k - 1) with hcase | hcase
      · have h1 : rest.length - (k - 1) = 0 := by omega
        rw [h1]
        have h2 : (0 + k - 1) / k = 0 := Nat.div_eq_of_lt (by omega)
        have h4 : rest.length / k = 0 := Nat.div_eq_of_lt (by omega)
        rw [h2, h4]
      · have h1 : rest.length - (k - 1) + k - 1 = rest.length := by omega
        rw [h1]

theorem everyNth_length {α : Type} (l : List α) (k : ℕ) (hk : 1 ≤ k) :
    (everyNth l k).length = (l.length + k - 1) / k :=
  everyNthAux_length l.length l k (Nat.le_refl _) hk

/-- `plot_manager.filter_and_process_data`: clip to the (optionally padded)
    view range intersected with the data extent, drop missing y-values, then
    decimate when the canvas width is known.  The canvas width is passed
    explicitly in place of the Tk widget query. -/
def filter_and_process_data (x_values : List ℚ) (y_values : List (Option ℚ))
    (x_min_val x_max_val : ℚ) (use_padding : Bool) (canvas_width : ℕ) :
    List ℚ × List ℚ :=
  if x_values.length = 0 then ([], [])
  else
    let data_x_min := x_values.headD 0
    let data_x_max := x_values.getLastD 0
    let view_x_min :=
      if use_padding then max (x_min_val - (x_max_val - x_min_val) * (1/10)) data_x_min
      else max x_min_val data_x_min
    let view_x_max :=
      if use_padding then min (x_max_val + (x_max_val - x_min_val) * (1/10)) data_x_max
      else min x_max_val data_x_max
    let masked := (x_values.zip y_values).filter
      (fun p => decide (view_x_min ≤ p.1) && decide (p.1 ≤ view_x_max))
    if masked.length = 0 then ([], [])
    else
      let valid := masked.filterMap
        (fun p => match p.2 with | some yv => some (p.1, yv) | none => none)
      if valid.length = 0 then ([], [])
      else if canvas_width > 0 then
        decimate (valid.map Prod.fst) (valid.map Prod.snd) canvas_width
      else (valid.map Prod.fst, valid.map Prod.snd)

/-- Claim C3 (amended): when the surviving count exceeds `width_px`,
    `decimate` stride-samples with `step = max 1 (count / width_px)` (floor
    division, not ceiling), so the output length is `⌈count / step⌉`, which is
    bounded by `2 * width_px` (not by `width_px`); for 10,000 points and
    `width_px = 500` the output length is exactly 500, and strictly increasing
    x-values stay strictly increasing. -/
theorem decimate_stride_bound (x y : List ℚ) (w : ℕ) (hw : 0 < w)
    (hlen : w < x.length) (hsorted : List.Pairwise (· < ·) x) :
    (decimate x y w).1 = everyNth x (max 1 (x.length / w)) ∧
    (decimate x y w).1.length =
      (x.length + max 1 (x.length / w) - 1) / max 1 (x.length / w) ∧
    (decimate x y w).1.length ≤ 2 * w ∧
    (x.length = 10000 → w = 500 → (decimate x y w).1.length = 500) ∧
    List.Pairwise (· < ·) (decimate x y w).1 := by
  have hk : 1 ≤ x.length / w := (Nat.one_le_div_iff hw).mpr (le_of_lt hlen)
  have hmax : max 1 (x.length / w) = x.length / w := max_eq_right hk
  have hfst : (decimate x y w).1 = everyNth x (max 1 (x.length / w)) := by
    unfold decimate
    rw [if_neg (not_le.mpr hlen)]
  have hlength : (decimate x y w).1.length =
      (x.length + max 1 (x.length / w) - 1) / max 1 (x.length / w) := by
    rw [hfst, everyNth_length _ _ (le_max_left _ _)]
  refine ⟨hfst, hlength, ?_, ?_, ?_⟩
  · rw [hlength, hmax]
    have hkpos : 0 < x.length / w := hk
    have hmod : w * (x.length / w) + x.length % w = x.length := Nat.div_add_mod _ _
    have hr : x.length % w < w := Nat.mod_lt _ hw
    have h2 : w * (x.length / w) + w = w * (x.length / w + 1) := by ring
    have h3 : w * (x.length / w + 1) ≤ w * (2 * (x.length / w)) :=
      Nat.mul_le_mul_left w (by omega)
    have h4 : w * (2 * (x.length / w)) = x.length / w * (2 * w) := by ring
    have h5 : (2 * w + 1) * (x.length / w) =
        x.length / w * (2 * w) + x.length / w := by ring
    have hdivlt : (x.length + x.length / w - 1) / (x.length / w) < 2 * w + 1 := by
      rw [Nat.div_lt_iff_lt_mul hkpos]
      omega
    omega
  · intro hx hw500
    rw [hlength, hx, hw500]
    norm_num
  · rw [hfst]
    exact List.Pairwise.sublist (everyNth_sublist x _) hsorted

/-- Counterexample to claim C3 as stated: 3 surviving points with
    `pixel_width = 2` give floor stride `max 1 (3 / 2) = 1`, so all 3 points
    survive decimation, exceeding the claimed `pixel_width` bound (a ceiling
    stride `⌈3 / 2⌉ = 2` would have kept only 2). -/
theorem decimate_stride_bound_counterexample :
    (decimate [0, 1, 2] [5, 6, 7] 2).1.length = 3 ∧
    ¬ ((decimate [0, 1, 2] [5, 6, 7] 2).1.length ≤ 2) := by
  constructor
  · rfl
  · intro h
    simp only [show (decimate [0, 1, 2] [5, 6, 7] 2).1.length = 3 from rfl] at h
    omega

/-- Witness for C3 (amended) at six points and `pixel_width = 2`. -/
theorem decimate_stride_bound_witness :
    (decimate [0, 1, 2, 3, 4, 5] [0, 1, 2, 3, 4, 5] 2).1 =
      everyNth [0, 1, 2, 3, 4, 5] (max 1 ([(0:ℚ), 1, 2, 3, 4, 5].length / 2)) ∧
    (decimate [0, 1, 2, 3, 4, 5] [0, 1, 2, 3, 4, 5] 2).1.length =
      ([(0:ℚ), 1, 2, 3, 4, 5].length + max 1 ([(0:ℚ), 1, 2, 3, 4, 5].length / 2) - 1) /
        max 1 ([(0:ℚ), 1, 2, 3, 4, 5].length / 2) ∧
    (decimate [0, 1, 2, 3, 4, 5] [0, 1, 2, 3, 4, 5] 2).1.length ≤ 2 * 2 ∧
    ([(0:ℚ), 1, 2, 3, 4, 5].length = 10000 → 2 = 500 →
      (decimate [0, 1, 2, 3, 4, 5] [0, 1, 2, 3, 4, 5] 2).1.length = 500) ∧
    List.Pairwise (· < ·) (decimate [0, 1, 2, 3, 4, 5] [0, 1, 2, 3, 4, 5] 2).1 :=
  decimate_stride_bound [0, 1, 2, 3, 4, 5] [0, 1, 2, 3, 4, 5] 2
    (by norm_num) (by norm_num) (by decide)

/-! ## Domain resolver (`plot_manager.apply_domain_restrictions`)

Python lowercases the expression and removes spaces, then substring-matches
function names.  Strings are handled as character lists. -/

/-- Does `hay` start with `needle`? -/
def startsWithChars : List Char → List Char → Bool
  | _, [] => true
  | [], _ :: _ => false
  | c :: cs, d :: ds => c == d && startsWithChars cs ds

/-- Python's `needle in hay` on character lists. -/
def containsChars : List Char → List Char → Bool
  | [], needle => needle.isEmpty
  | c :: cs, needle => startsWithChars (c :: cs) needle || containsChars cs needle

/-- `expression.lower().replace(" ", "")`. -/
def exprKey (expression : String) : List Char :=
  (expression.data.map Char.toLower).filter (fun ch => ch != Char.ofNat 32)

/-- `"log(" in expr_lower or "ln(" in expr_lower`. -/
def hasLogCall (key : List Char) : Bool :=
  containsChars key "log(".data || containsChars key "ln(".data

/-- `"sqrt(" in expr_lower`. -/
def hasSqrtCall (key : List Char) : Bool :=
  containsChars key "sqrt(".data

/-- `"asin(" in expr_lower or "acos(" in expr_lower`. -/
def hasAsinAcosCall (key : List Char) : Bool :=
  containsChars key "asin(".data || containsChars key "acos(".data

/-- The `1e-10` lower bound used for logarithms. -/
def LOG_EPS : ℚ := 1/10^10

/-- `plot_manager.apply_domain_restrictions`: the `elif` chain, the combined
    log-and-sqrt check, then the validity fallback. -/
def apply_domain_restrictions (expression : String) (x_min x_max : ℚ) :
    ℚ × ℚ :=
  let el := exprKey expression
  let p1 :=
    if hasLogCall el then (max x_min LOG_EPS, x_max)
    else if hasSqrtCall el then (max x_min 0, x_max)
    else if hasAsinAcosCall el then (max x_min (-1), min x_max 1)
    else (x_min, x_max)
  let x1 := if hasLogCall el && hasSqrtCall el then max p1.1 LOG_EPS else p1.1
  if x1 ≥ p1.2 then
    if hasLogCall el then (LOG_EPS, max 10 p1.2)
    else if hasSqrtCall el then (0, max 10 p1.2)
    else if hasAsinAcosCall el then (-1, 1)
    else (0, max 1 p1.2)
  else (x1, p1.2)

/-- Claim C6: `restrict("log(x)", -10, 10) = (1e-10, 10)`,
    `restrict("sqrt(x)", -10, 10) = (0, 10)`,
    `restrict("asin(x)", -10, 10) = (-1, 1)`; generally a logarithm call
    raises the lower bound to `max(x_min, 1e-10)`, and when log and sqrt both
    appear the log restriction wins. -/
theorem domain_resolver_results (e : String) (x_min x_max : ℚ) :
    apply_domain_restrictions "log(x)" (-10) 10 = (LOG_EPS, 10) ∧
    apply_domain_restrictions "sqrt(x)" (-10) 10 = (0, 10) ∧
    apply_domain_restrictions "asin(x)" (-10) 10 = (-1, 1) ∧
    (hasLogCall (exprKey e) = true → max x_min LOG_EPS < x_max →
      apply_domain_restrictions e x_min x_max = (max x_min LOG_EPS, x_max)) ∧
    (hasLogCall (exprKey e) = true → hasSqrtCall (exprKey e) = true →
      max x_min LOG_EPS < x_max →
      apply_domain_restrictions e x_min x_max = (max x_min LOG_EPS, x_max)) := by
  have hgen : ∀ (f : String) (xm xM : ℚ), hasLogCall (exprKey f) = true →
      max xm LOG_EPS < xM →
      apply_domain_restrictions f xm xM = (max xm LOG_EPS, xM) := by
    intro f xm xM hlog hlt
    unfold apply_domain_restrictions
    dsimp only
    cases hsq : hasSqrtCall (exprKey f) with
    | false =>
      simp only [hlog, hsq, Bool.true_and, eq_self_iff_true, if_true,
        Bool.false_eq_true, if_false]
      rw [if_neg (not_le.mpr hlt)]
    | true =>
      simp only [hlog, hsq, Bool.true_and, eq_self_iff_true, if_true]
      rw [max_assoc, max_self]
      rw [if_neg (not_le.mpr hlt)]
  have hmaxlog : max (-10 : ℚ) LOG_EPS = LOG_EPS :=
    max_eq_right (by norm_num [LOG_EPS])
  refine ⟨?_, ?_, ?_, hgen e x_min x_max, fun hlog _ hlt => hgen e x_min x_max hlog hlt⟩
  · have h := hgen "log(x)" (-10) 10 (by decide)
      (by rw [hmaxlog]; norm_num [LOG_EPS])
    rw [h, hmaxlog]
  · have h1 : hasLogCall (exprKey "sqrt(x)") = false := by decide
    have h2 : hasSqrtCall (exprKey "sqrt(x)") = true := by decide
    unfold apply_domain_restrictions
    dsimp only
    simp only [h1, h2, Bool.false_and, Bool.false_eq_true, if_false,
      eq_self_iff_true, if_true]
    rw [max_eq_right (by norm_num : (-10:ℚ) ≤ 0)]
    rw [if_neg (by norm_num : ¬ ((0:ℚ) ≥ 10))]
  · have h1 : hasLogCall (exprKey "asin(x)") = false := by decide
    have h2 : hasSqrtCall (exprKey "asin(x)") = false := by decide
    have h3 : hasAsinAcosCall (exprKey "asin(x)") = true := by decide
    unfold apply_domain_restrictions
    dsimp only
    simp only [h1, h2, h3, Bool.false_and, Bool.false_eq_true, if_false,
      eq_self_iff_true, if_true]
    rw [max_eq_right (by norm_num : (-10:ℚ) ≤ -1),
      min_eq_right (by norm_num : (1:ℚ) ≤ 10)]
    rw [if_neg (by norm_num : ¬ ((-1:ℚ) ≥ 1))]

/-- Witness for C6's general clause, discharged at `"log(x) * sqrt(x)"`:
    both log and sqrt appear and the log lower bound wins. -/
theorem domain_resolver_results_witness :
    apply_domain_restrictions "log(x) * sqrt(x)" (-10) 10 =
      (max (-10) LOG_EPS, 10) :=
  (domain_resolver_results "log(x) * sqrt(x)" (-10) 10).2.2.2.2
    (by decide) (by decide)
    (by rw [max_eq_right (by norm_num [LOG_EPS] : (-10:ℚ) ≤ LOG_EPS)]
        norm_num [LOG_EPS])

/-! ## Application cache state and the expression compiler

The mutable fields of the application object that the pipeline touches.  The
sympy parse/lambdify step is an external library call, abstracted as a
`Compiler` that either fails (raising, in Python) or yields the parsed
expression and the compiled evaluator. -/

structure App where
  function : String
  cached_function_str : Option String
  cached_parsed_expr : Option String
  cached_lambdified_func : Option CompiledFn
  cached_x_values : Option (List ℚ)
  cached_y_values : Option (List (Option ℚ))
  cached_x_range : Option (ℚ × ℚ)

def Compiler : Type := String → Option (String × CompiledFn)

/-- `plot_manager.clear_data_cache`. -/
def clear_data_cache (app : App) : App :=
  { app with cached_x_values := none, cached_y_values := none,
             cached_x_range := none }

/-- `plot_manager.get_cached_function`: serve the single-slot cache on an
    exact string match, otherwise compile, replace the cache slot, and clear
    the data cache; a compile failure raises without touching any state. -/
def get_cached_function (compile : Compiler) (app : App) (expression : String) :
    App × Except String CompiledFn :=
  if app.cached_function_str = some expression ∧
      app.cached_lambdified_func.isSome then
    (app, Except.ok (app.cached_lambdified_func.getD (fun _ => none)))
  else
    match compile expression with
    | some pf =>
      (clear_data_cache
        { app with cached_function_str := some expression,
                   cached_parsed_expr := some pf.1,
                   cached_lambdified_func := some pf.2 },
        Except.ok pf.2)
    | none => (app, Except.error "Invalid mathematical expression")

/-! ## View cache (`plot_manager.get_cached_data`) -/

/-- `max(current_range * CACHE_RESOLUTION_FACTOR, MIN_CACHE_RANGE)`. -/
def cache_extension (x_min x_max : ℚ) : ℚ :=
  max ((x_max - x_min) * CACHE_RESOLUTION_FACTOR) MIN_CACHE_RANGE

/-- `min(PLOT_RESOLUTION, current_range / 1000)`. -/
def adaptive_resolution (current_range : ℚ) : ℚ :=
  min PLOT_RESOLUTION (current_range / 1000)

/-- `np.arange(start, stop, step)` for a positive step: `⌈(stop-start)/step⌉`
    values `start + i*step`. -/
def arange (start stop step : ℚ) : List ℚ :=
  (List.range (⌈(stop - start) / step⌉.toNat)).map
    (fun i : ℕ => start + (i : ℚ) * step)

/-- The cache-miss path of `get_cached_data`: compile, pick the adaptive
    resolution, restrict the domain over the extended window, sample, and
    store the new arrays together with the extended window. -/
def get_cached_data_compute (compile : Compiler) (app : App) (x_min x_max : ℚ) :
    App × Except String (List ℚ × List (Option ℚ)) :=
  let cache_x_min := x_min - cache_extension x_min x_max
  let cache_x_max := x_max + cache_extension x_min x_max
  match get_cached_function compile app app.function with
  | (app1, Except.ok func) =>
    let resolution := adaptive_resolution (x_max - x_min)
    let adjusted := apply_domain_restrictions app.function cache_x_min cache_x_max
    let x_values := arange adjusted.1 (adjusted.2 + resolution) resolution
    let y_values := safe_function_evaluation func x_values
    ({ app1 with cached_x_values := some x_values,
                 cached_y_values := some y_values,
                 cached_x_range := some (cache_x_min, cache_x_max) },
      Except.ok (x_values, y_values))
  | (app1, Except.error e) =>
    (app1, Except.error ("Error computing function values: " ++ e))

/-- `plot_manager.get_cached_data`: serve the stored arrays when the recorded
    cache range contains the extended request window, else recompute. -/
def get_cached_data (compile : Compiler) (app : App) (x_min x_max : ℚ) :
    App × Except String (List ℚ × List (Option ℚ)) :=
  match app.cached_x_values, app.cached_y_values, app.cached_x_range with
  | some xs, some ys, some r =>
    if r.1 ≤ x_min - cache_extension x_min x_max ∧
        x_max + cache_extension x_min x_max ≤ r.2 then
      (app, Except.ok (xs, ys))
    else get_cached_data_compute compile app x_min x_max
  | _, _, _ => get_cached_data_compute compile app x_min x_max

theorem get_cached_data_hit (compile : Compiler) (app : App) (x_min x_max : ℚ)
    (xs : List ℚ) (ys : List (Option ℚ)) (cmin cmax : ℚ)
    (h1 : app.cached_x_values = some xs) (h2 : app.cached_y_values = some ys)
    (h3 : app.cached_x_range = some (cmin, cmax))
    (h4 : cmin ≤ x_min - cache_extension x_min x_max)
    (h5 : x_max + cache_extension x_min x_max ≤ cmax) :
    get_cached_data compile app x_min x_max = (app, Except.ok (xs, ys)) := by
  unfold get_cached_data
  rw [h1, h2, h3]
  exact if_pos ⟨h4, h5⟩

theorem get_cached_data_compute_ok (compile : Compiler) (app app' : App)
    (x_min x_max : ℚ) (r : List ℚ × List (Option ℚ))
    (h : get_cached_data_compute compile app x_min x_max = (app', Except.ok r)) :
    app'.cached_x_values = some r.1 ∧ app'.cached_y_values = some r.2 ∧
    app'.cached_x_range = some (x_min - cache_extension x_min x_max,
                                x_max + cache_extension x_min x_max) := by
  unfold get_cached_data_compute at h
  rcases hgf : get_cached_function compile app app.function with ⟨app1, res⟩
  rw [hgf] at h
  cases res with
  | error e => simp at h
  | ok func =>
    dsimp only at h
    injection h with ha hb
    injection hb with hb
    subst ha
    subst hb
    exact ⟨rfl, rfl, rfl⟩

/-- Claim C1: a successful `get_cached_data(x_min, x_max)` leaves the cache
    holding exactly the returned arrays under a recorded range containing the
    extended window `[x_min - ext, x_max + ext]` with
    `ext = max((x_max - x_min) * 2.0, 50.0)`, so an immediate second call with
    the same arguments is a cache hit: it returns the identical arrays and
    changes no state. -/
theorem view_cache_idempotent (compile : Compiler) (app app' : App)
    (x_min x_max : ℚ) (r : List ℚ × List (Option ℚ))
    (hx : x_min < x_max)
    (h1 : get_cached_data compile app x_min x_max = (app', Except.ok r)) :
    get_cached_data compile app' x_min x_max = (app', Except.ok r) ∧
    app'.cached_x_values = some r.1 ∧
    app'.cached_y_values = some r.2 ∧
    (∃ cr : ℚ × ℚ, app'.cached_x_range = some cr ∧
      cr.1 ≤ x_min - cache_extension x_min x_max ∧
      x_max + cache_extension x_min x_max ≤ cr.2) ∧
    cache_extension x_min x_max = max ((x_max - x_min) * 2) 50 := by
  have key : app'.cached_x_values = some r.1 ∧ app'.cached_y_values = some r.2 ∧
      (∃ cr : ℚ × ℚ, app'.cached_x_range = some cr ∧
        cr.1 ≤ x_min - cache_extension x_min x_max ∧
        x_max + cache_extension x_min x_max ≤ cr.2) := by
    unfold get_cached_data at h1
    rcases hX : app.cached_x_values with _ | xs <;> rw [hX] at h1
    · obtain ⟨k1, k2, k3⟩ := get_cached_data_compute_ok compile app app' x_min x_max r h1
      exact ⟨k1, k2, ⟨(x_min - cache_extension x_min x_max,
        x_max + cache_extension x_min x_max), k3, le_refl _, le_refl _⟩⟩
    · rcases hY : app.cached_y_values with _ | ys <;> rw [hY] at h1
      · obtain ⟨k1, k2, k3⟩ := get_cached_data_compute_ok compile app app' x_min x_max r h1
        exact ⟨k1, k2, ⟨(x_min - cache_extension x_min x_max,
          x_max + cache_extension x_min x_max), k3, le_refl _, le_refl _⟩⟩
      · rcases hR : app.cached_x_range with _ | cr <;> rw [hR] at h1
        · obtain ⟨k1, k2, k3⟩ := get_cached_data_compute_ok compile app app' x_min x_max r h1
          exact ⟨k1, k2, ⟨(x_min - cache_extension x_min x_max,
            x_max + cache_extension x_min x_max), k3, le_refl _, le_refl _⟩⟩
        · dsimp only at h1
          by_cases hcond : cr.1 ≤ x_min - cache_extension x_min x_max ∧
              x_max + cache_extension x_min x_max ≤ cr.2
          · rw [if_pos hcond] at h1
            injection h1 with ha hb
            injection hb with hb
            subst ha
            subst hb
            exact ⟨hX, hY, ⟨cr, hR, hcond.1, hcond.2⟩⟩
          · rw [if_neg hcond] at h1
            obtain ⟨k1, k2, k3⟩ := get_cached_data_compute_ok compile app app' x_min x_max r h1
            exact ⟨k1, k2, ⟨(x_min - cache_extension x_min x_max,
              x_max + cache_extension x_min x_max), k3, le_refl _, le_refl _⟩⟩
  obtain ⟨k1, k2, cr', hcr, hc1, hc2⟩ := key
  refine ⟨?_, k1, k2, ⟨cr', hcr, hc1, hc2⟩, rfl⟩
  have hhit := get_cached_data_hit compile app' x_min x_max r.1 r.2 cr'.1 cr'.2
    k1 k2 (by rw [hcr]) hc1 hc2
  exact hhit

/-! ### Concrete compiler, evaluator and application states for witnesses -/

def fnZero : CompiledFn := fun xs => some (xs.map fun _ => NumVal.fin 0)

def compilerOk : Compiler := fun s => some (s, fnZero)

def compilerFail : Compiler := fun _ => none

def appFresh : App :=
  { function := "x", cached_function_str := none, cached_parsed_expr := none,
    cached_lambdified_func := none, cached_x_values := none,
    cached_y_values := none, cached_x_range := none }

def appWarm : App :=
  { function := "x", cached_function_str := some "x",
    cached_parsed_expr := some "x", cached_lambdified_func := some fnZero,
    cached_x_values := some [0], cached_y_values := some [some 0],
    cached_x_range := some (-60, 60) }

/-- Witness for C1: a warm cache over `[-60, 60]` serves the request `[0, 1]`
    (extension `max(2, 50) = 50`, window `[-50, 51]`) idempotently. -/
theorem view_cache_idempotent_witness :
    get_cached_data compilerFail appWarm 0 1 =
      (appWarm, Except.ok ([0], [some 0])) ∧
    appWarm.cached_x_values = some ([(0:ℚ)], [some (0:ℚ)]).1 ∧
    appWarm.cached_y_values = some ([(0:ℚ)], [some (0:ℚ)]).2 ∧
    (∃ cr : ℚ × ℚ, appWarm.cached_x_range = some cr ∧
      cr.1 ≤ 0 - cache_extension 0 1 ∧
      1 + cache_extension 0 1 ≤ cr.2) ∧
    cache_extension 0 1 = max ((1 - 0) * 2) 50 :=
  view_cache_idempotent compilerFail appWarm appWarm 0 1 ([0], [some 0])
    (by norm_num)
    (get_cached_data_hit compilerFail appWarm 0 1 [0] [some 0] (-60) 60 rfl rfl rfl
      (by norm_num [cache_extension, CACHE_RESOLUTION_FACTOR, MIN_CACHE_RANGE, max_def])
      (by norm_num [cache_extension, CACHE_RESOLUTION_FACTOR, MIN_CACHE_RANGE, max_def]))

/-- Claim C5: an exact string match with a present compiled function is served
    from the single-slot cache without re-parsing and without state change;
    otherwise a successful compile replaces the slot with the new callable,
    returns it, and clears the view cache, so a subsequent `get_cached_data`
    must take the recompute path. -/
theorem compiler_cache_and_invalidation (compile : Compiler) (app : App)
    (e pe : String) (f : CompiledFn) :
    (app.cached_function_str = some e → app.cached_lambdified_func = some f →
      get_cached_function compile app e = (app, Except.ok f)) ∧
    (¬ (app.cached_function_str = some e ∧ app.cached_lambdified_func.isSome) →
      compile e = some (pe, f) →
      (get_cached_function compile app e).1.cached_function_str = some e ∧
      (get_cached_function compile app e).1.cached_lambdified_func = some f ∧
      (get_cached_function compile app e).2 = Except.ok f ∧
      (get_cached_function compile app e).1.cached_x_values = none ∧
      (get_cached_function compile app e).1.cached_y_values = none ∧
      (get_cached_function compile app e).1.cached_x_range = none ∧
      (∀ x0 x1 : ℚ,
        get_cached_data compile (get_cached_function compile app e).1 x0 x1 =
        get_cached_data_compute compile (get_cached_function compile app e).1 x0 x1)) := by
  constructor
  · intro hs hf
    unfold get_cached_function
    rw [if_pos ⟨hs, by rw [hf]; rfl⟩]
    simp only [hf, Option.getD_some]
  · intro hmiss hc
    unfold get_cached_function
    rw [if_neg hmiss, hc]
    exact ⟨rfl, rfl, rfl, rfl, rfl, rfl, fun x0 x1 => rfl⟩

/-- Witness for C5: a cache hit on `"x"` and a recompile for `"y"` on a fresh
    state. -/
theorem compiler_cache_and_invalidation_witness :
    get_cached_function compilerOk appWarm "x" = (appWarm, Except.ok fnZero) ∧
    (get_cached_function compilerOk appFresh "y").1.cached_function_str = some "y" ∧
    (get_cached_function compilerOk appFresh "y").1.cached_lambdified_func = some fnZero ∧
    (get_cached_function compilerOk appFresh "y").2 = Except.ok fnZero ∧
    (get_cached_function compilerOk appFresh "y").1.cached_x_values = none := by
  have h1 := (compiler_cache_and_invalidation compilerOk appWarm "x" "x" fnZero).1 rfl rfl
  have h2 := (compiler_cache_and_invalidation compilerOk appFresh "y" "y" fnZero).2
    (by simp [appFresh]) rfl
  exact ⟨h1, h2.1, h2.2.1, h2.2.2.1, h2.2.2.2.1⟩

/-- Claim C9: when the compiler fails on an expression that is not served from
    the cache, `get_cached_function` raises and every cache field — compiler
    slot and view cache alike — is exactly as before the call, so the
    previously compiled string still returns the old callable. -/
theorem compiler_failure_atomicity (compile : Compiler) (app : App)
    (e e₀ : String) (f₀ : CompiledFn)
    (hfail : compile e = none)
    (hmiss : ¬ (app.cached_function_str = some e ∧
      app.cached_lambdified_func.isSome)) :
    get_cached_function compile app e =
      (app, Except.error "Invalid mathematical expression") ∧
    (app.cached_function_str = some e₀ → app.cached_lambdified_func = some f₀ →
      get_cached_function compile app e₀ = (app, Except.ok f₀)) := by
  constructor
  · unfold get_cached_function
    rw [if_neg hmiss, hfail]
  · intro hs hf
    unfold get_cached_function
    rw [if_pos ⟨hs, by rw [hf]; rfl⟩]
    simp only [hf, Option.getD_some]

/-- Witness for C9: failing to compile `"y"` leaves the warm state intact and
    `"x"` still served from cache. -/
theorem compiler_failure_atomicity_witness :
    get_cached_function compilerFail appWarm "y" =
      (appWarm, Except.error "Invalid mathematical expression") ∧
    get_cached_function compilerFail appWarm "x" = (appWarm, Except.ok fnZero) := by
  have h := compiler_failure_atomicity compilerFail appWarm "y" "x" fnZero rfl
    (by simp [appWarm])
  exact ⟨h.1, h.2 rfl rfl⟩

/-! ## x-grid generation lemmas (`np.arange(lo, hi + resolution, resolution)`) -/

theorem mem_arange {a b s x : ℚ} :
    x ∈ arange a b s ↔
      ∃ i : ℕ, i < ⌈(b - a) / s⌉.toNat ∧ x = a + (i : ℚ) * s := by
  unfold arange
  simp only [List.mem_map, List.mem_range]
  constructor
  · rintro ⟨i, hi, heq⟩
    exact ⟨i, hi, heq.symm⟩
  · rintro ⟨i, hi, heq⟩
    exact ⟨i, hi, heq.symm⟩

theorem arange_head (a b s : ℚ) (h : 0 < ⌈(b - a) / s⌉.toNat) :
    (arange a b s).head? = some a := by
  unfold arange
  rcases Nat.exists_eq_succ_of_ne_zero (Nat.pos_iff_ne_zero.mp h) with ⟨m, hm⟩
  rw [hm, List.range_succ_eq_map]
  simp

theorem arange_sorted (a b s : ℚ) (hs : 0 < s) :
    List.Pairwise (· < ·) (arange a b s) := by
  unfold arange
  refine List.Pairwise.map _ ?_ (List.pairwise_lt_range _)
  intro i j hij
  have hq : (i : ℚ) < j := by exact_mod_cast hij
  have := mul_lt_mul_of_pos_right hq hs
  linarith

theorem arange_upper (a b s x : ℚ) (hs : 0 < s) (hx : x ∈ arange a b s) :
    x < b := by
  rw [mem_arange] at hx
  obtain ⟨i, hi, rfl⟩ := hx
  have h1 : (i : ℤ) < ⌈(b - a) / s⌉ := Int.lt_toNat.mp hi
  have h2 : (i : ℚ) < (b - a) / s := by exact_mod_cast Int.lt_ceil.mp h1
  have h3 : (i : ℚ) * s < b - a := (lt_div_iff₀ hs).mp h2
  linarith

theorem arange_getLast (a b s : ℚ) (h : 0 < ⌈(b - a) / s⌉.toNat) :
    (arange a b s).getLast? =
      some (a + ((⌈(b - a) / s⌉.toNat - 1 : ℕ) : ℚ) * s) := by
  unfold arange
  rcases Nat.exists_eq_succ_of_ne_zero (Nat.pos_iff_ne_zero.mp h) with ⟨m, hm⟩
  rw [hm, List.range_succ, List.map_append]
  simp

/-- Claim C8 (amended): over a resolved interval `[lo, hi]` with `lo < hi` and
    a positive step `res`, the grid `arange(lo, hi + res, res)` starts at
    `lo`, is strictly increasing, stays below `hi + res`, and its last sample
    lies in `[hi, hi + res)` — so `hi` is covered but may be overshot by less
    than one step, and `hi` itself appears only when `hi - lo` is a multiple
    of `res`; the step used by `get_cached_data` is
    `min(0.01, current_range / 1000)` of the requested view range. -/
theorem grid_generation (lo hi res : ℚ) (hres : 0 < res) (hlt : lo < hi) :
    (arange lo (hi + res) res).head? = some lo ∧
    List.Pairwise (· < ·) (arange lo (hi + res) res) ∧
    (∀ x ∈ arange lo (hi + res) res, x < hi + res) ∧
    (∃ last, (arange lo (hi + res) res).getLast? = some last ∧
      hi ≤ last ∧ last < hi + res) ∧
    (∀ cr : ℚ, adaptive_resolution cr = min (1/100) (cr / 1000)) := by
  have hy : (1 : ℚ) < (hi + res - lo) / res := by
    rw [lt_div_iff₀ hres]
    linarith
  have hceil1 : (1 : ℤ) < ⌈(hi + res - lo) / res⌉ := by
    rw [Int.lt_ceil]
    exact_mod_cast hy
  have hc0 : (0 : ℤ) < ⌈(hi + res - lo) / res⌉ := lt_trans Int.zero_lt_one hceil1
  have hn : 0 < ⌈(hi + res - lo) / res⌉.toNat := by
    rw [Int.lt_toNat]
    exact_mod_cast hc0
  refine ⟨arange_head _ _ _ hn, arange_sorted _ _ _ hres,
    fun x hx => arange_upper _ _ _ x hres hx, ?_, fun cr => rfl⟩
  refine ⟨lo + ((⌈(hi + res - lo) / res⌉.toNat - 1 : ℕ) : ℚ) * res,
    arange_getLast _ _ _ hn, ?_, ?_⟩
  · have hge : (hi + res - lo) / res ≤ ((⌈(hi + res - lo) / res⌉.toNat : ℕ) : ℚ) := by
      have h1 := Int.le_ceil ((hi + res - lo) / res)
      rw [← Int.toNat_of_nonneg (le_of_lt hc0)] at h1
      exact_mod_cast h1
    have hsub : ((⌈(hi + res - lo) / res⌉.toNat - 1 : ℕ) : ℚ) =
        ((⌈(hi + res - lo) / res⌉.toNat : ℕ) : ℚ) - 1 := by
      rw [Nat.cast_sub hn]
      norm_num
    rw [hsub]
    have hyres : (hi + res - lo) / res * res = hi + res - lo :=
      div_mul_cancel₀ _ (ne_of_gt hres)
    have hmul := mul_le_mul_of_nonneg_right
      (sub_le_sub_right hge 1) (le_of_lt hres)
    nlinarith [hmul, hyres]
  · refine arange_upper lo (hi + res) res _ hres ?_
    exact List.mem_of_getLast?_eq_some (arange_getLast _ _ _ hn)

/-- Witness for C8 (amended) at `lo = 0`, `hi = 1`, `res = 1/100`. -/
theorem grid_generation_witness :
    (arange 0 (1 + 1/100) (1/100)).head? = some 0 ∧
    List.Pairwise (· < ·) (arange 0 (1 + 1/100) (1/100)) ∧
    (∀ x ∈ arange 0 (1 + 1/100) (1/100), x < 1 + 1/100) ∧
    (∃ last, (arange 0 (1 + 1/100) (1/100)).getLast? = some last ∧
      1 ≤ last ∧ last < 1 + 1/100) ∧
    (∀ cr : ℚ, adaptive_resolution cr = min (1/100) (cr / 1000)) :=
  grid_generation 0 1 (1/100) (by norm_num) (by norm_num)

/-- Counterexample to claim C8 as stated: for the resolved interval
    `[0, 10.005]` the claimed step is `min(0.01, 10.005/1000) = 0.01`, but the
    generated grid does not contain `10.005` — its 1002nd and last sample is
    `10.01`, past the claimed inclusive endpoint. -/
theorem grid_generation_counterexample :
    ¬ ((10005/1000 : ℚ) ∈
        arange 0 (10005/1000 + adaptive_resolution (10005/1000))
          (adaptive_resolution (10005/1000))) ∧
    ((0 + ((1001 : ℕ) : ℚ) * adaptive_resolution (10005/1000) : ℚ) ∈
        arange 0 (10005/1000 + adaptive_resolution (10005/1000))
          (adaptive_resolution (10005/1000))) ∧
    (10005/1000 : ℚ) < 0 + ((1001 : ℕ) : ℚ) * adaptive_resolution (10005/1000) := by
  have hres : adaptive_resolution (10005/1000) = 1/100 := by
    unfold adaptive_resolution PLOT_RESOLUTION
    rw [min_eq_left (by norm_num)]
  have harg : ((10005/1000 + 1/100 : ℚ) - 0) / (1/100) = 2003/2 := by norm_num
  have hceil : ⌈(2003/2 : ℚ)⌉ = 1002 := by
    rw [Int.ceil_eq_iff]
    constructor <;> norm_num
  refine ⟨?_, ?_, ?_⟩
  · rw [hres, mem_arange]
    rintro ⟨i, hi, heq⟩
    have hiq : (i : ℚ) * (1/100) = 10005/1000 := by linarith [heq]
    have h2 : ((2 * i : ℕ) : ℚ) = 2001 := by push_cast; linarith
    have h3 : (2 * i : ℕ) = 2001 := by exact_mod_cast h2
    omega
  · rw [hres, mem_arange]
    refine ⟨1001, ?_, rfl⟩
    rw [harg, hceil]
    norm_num
  · rw [hres]
    push_cast
    norm_num

/-! ## Redraw scheduler (`schedule_redraw` / `throttled_redraw` /
`perform_plot_update`)

`pending_redraw_id` is the truthiness of the Tk callback handle; `queued`
counts callbacks currently registered with the host idle loop (an `idleSlot`
event is the host running one); `executed` counts render executions. -/

structure Sched where
  pending_redraw_id : Bool
  queued : ℕ
  executed : ℕ
deriving DecidableEq, Repr

/-- `plot_manager.perform_plot_update`: clears the pending handle and renders. -/
def perform_plot_update (s : Sched) : Sched :=
  { s with pending_redraw_id := false, executed := s.executed + 1 }

/-- `plot_manager.schedule_redraw`: register one idle callback unless one is
    already pending. -/
def schedule_redraw (s : Sched) : Sched :=
  if s.pending_redraw_id then s
  else { s with pending_redraw_id := true, queued := s.queued + 1 }

/-- `plot_manager.throttled_redraw`: forced requests cancel any pending
    callback and render immediately; non-forced requests coalesce. -/
def throttled_redraw (s : Sched) (force : Bool) : Sched :=
  if force then
    perform_plot_update
      (if s.pending_redraw_id then
        { s with pending_redraw_id := false, queued := s.queued - 1 }
      else s)
  else schedule_redraw s

/-- The host idle loop firing one queued callback, which runs
    `perform_plot_update`. -/
def idle_fire (s : Sched) : Sched :=
  if 0 < s.queued then perform_plot_update { s with queued := s.queued - 1 }
  else s

inductive SchedEvent where
  | redraw (force : Bool)
  | idleSlot
deriving DecidableEq, Repr

def sched_step (s : Sched) : SchedEvent → Sched
  | .redraw f => throttled_redraw s f
  | .idleSlot => idle_fire s

def sched_run (s : Sched) (es : List SchedEvent) : Sched :=
  es.foldl sched_step s

/-- The at-most-one-token invariant: the idle queue holds exactly one callback
    when a token is pending and none otherwise. -/
def schedInv (s : Sched) : Prop :=
  s.queued = if s.pending_redraw_id then 1 else 0

theorem sched_step_inv (s : Sched) (e : SchedEvent) (h : schedInv s) :
    schedInv (sched_step s e) := by
  unfold schedInv at h
  cases e with
  | redraw f =>
    cases f with
    | false =>
      show schedInv (throttled_redraw s false)
      unfold throttled_redraw schedule_redraw
      cases hp : s.pending_redraw_id with
      | true => simpa [schedInv, hp] using h
      | false => simp [schedInv, hp] at h ⊢; omega
    | true =>
      show schedInv (throttled_redraw s true)
      unfold throttled_redraw perform_plot_update
      cases hp : s.pending_redraw_id with
      | true => simp [schedInv, hp] at h ⊢; omega
      | false => simp [schedInv, hp] at h ⊢; omega
  | idleSlot =>
    show schedInv (idle_fire s)
    unfold idle_fire perform_plot_update
    cases hp : s.pending_redraw_id with
    | true =>
      simp [hp] at h
      simp [schedInv, h]
    | false =>
      simp [hp] at h
      simp [schedInv, h, hp]

theorem sched_run_inv (es : List SchedEvent) (s : Sched) (h : schedInv s) :
    schedInv (sched_run s es) := by
  induction es generalizing s with
  | nil => exact h
  | cons e es ih => exact ih _ (sched_step_inv s e h)

theorem throttled_redraw_of_pending (s : Sched)
    (h : s.pending_redraw_id = true) : throttled_redraw s false = s := by
  unfold throttled_redraw schedule_redraw
  simp [h]

theorem sched_run_nonforced_of_pending (n : ℕ) (s : Sched)
    (h : s.pending_redraw_id = true) :
    sched_run s (List.replicate n (SchedEvent.redraw false)) = s := by
  induction n with
  | zero => rfl
  | succ m ih =>
    show sched_run (sched_step s (SchedEvent.redraw false))
      (List.replicate m (SchedEvent.redraw false)) = s
    rw [show sched_step s (SchedEvent.redraw false) = s
      from throttled_redraw_of_pending s h]
    exact ih

/-- Claim C7: from the idle state, `N ≥ 1` consecutive non-forced requests
    leave exactly one pending token and one queued callback and execute
    nothing; the idle slot then executes exactly one render; a forced request
    issued instead while the deferred render is pending cancels it and
    executes exactly one render (one total, not two); and every event
    sequence preserves the at-most-one-pending-token invariant. -/
theorem redraw_scheduler_coalescing (s0 : Sched) (n : ℕ)
    (es : List SchedEvent)
    (hidle : s0.pending_redraw_id = false ∧ s0.queued = 0) (hn : 1 ≤ n) :
    (sched_run s0 (List.replicate n (SchedEvent.redraw false)) =
      { s0 with pending_redraw_id := true, queued := 1 }) ∧
    (idle_fire (sched_run s0 (List.replicate n (SchedEvent.redraw false)))).executed
      = s0.executed + 1 ∧
    (idle_fire (sched_run s0 (List.replicate n (SchedEvent.redraw false)))).pending_redraw_id
      = false ∧
    (idle_fire (sched_run s0 (List.replicate n (SchedEvent.redraw false)))).queued = 0 ∧
    (throttled_redraw (sched_run s0 (List.replicate n (SchedEvent.redraw false))) true).executed
      = s0.executed + 1 ∧
    (throttled_redraw (sched_run s0 (List.replicate n (SchedEvent.redraw false))) true).pending_redraw_id
      = false ∧
    (throttled_redraw (sched_run s0 (List.replicate n (SchedEvent.redraw false))) true).queued = 0 ∧
    (sched_run s0 es).queued ≤ 1 := by
  obtain ⟨hp0, hq0⟩ := hidle
  rcases Nat.exists_eq_succ_of_ne_zero (Nat.pos_iff_ne_zero.mp hn) with ⟨m, hm⟩
  have hstep1 : sched_step s0 (SchedEvent.redraw false) =
      { s0 with pending_redraw_id := true, queued := 1 } := by
    show throttled_redraw s0 false = _
    unfold throttled_redraw schedule_redraw
    simp [hp0, hq0]
  have hrun : sched_run s0 (List.replicate n (SchedEvent.redraw false)) =
      { s0 with pending_redraw_id := true, queued := 1 } := by
    rw [hm]
    show sched_run (sched_step s0 (SchedEvent.redraw false))
      (List.replicate m (SchedEvent.redraw false)) = _
    rw [hstep1]
    exact sched_run_nonforced_of_pending m _ rfl
  have hinv : schedInv (sched_run s0 es) := by
    refine sched_run_inv es s0 ?_
    unfold schedInv
    rw [hp0, hq0]
    rfl
  refine ⟨hrun, ?_, ?_, ?_, ?_, ?_, ?_, ?_⟩
  · rw [hrun]; rfl
  · rw [hrun]; rfl
  · rw [hrun]; rfl
  · rw [hrun]; rfl
  · rw [hrun]; rfl
  · rw [hrun]; rfl
  · unfold schedInv at hinv
    rw [hinv]
    split <;> omega

/-- Witness for C7: three coalesced requests from the idle state, then the
    idle slot or a forced request. -/
theorem redraw_scheduler_coalescing_witness :
    (sched_run ⟨false, 0, 0⟩ (List.replicate 3 (SchedEvent.redraw false)) =
      { Sched.mk false 0 0 with pending_redraw_id := true, queued := 1 }) ∧
    (idle_fire (sched_run ⟨false, 0, 0⟩
      (List.replicate 3 (SchedEvent.redraw false)))).executed = 0 + 1 ∧
    (idle_fire (sched_run ⟨false, 0, 0⟩
      (List.replicate 3 (SchedEvent.redraw false)))).pending_redraw_id = false ∧
    (idle_fire (sched_run ⟨false, 0, 0⟩
      (List.replicate 3 (SchedEvent.redraw false)))).queued = 0 ∧
    (throttled_redraw (sched_run ⟨false, 0, 0⟩
      (List.replicate 3 (SchedEvent.redraw false))) true).executed = 0 + 1 ∧
    (throttled_redraw (sched_run ⟨false, 0, 0⟩
      (List.replicate 3 (SchedEvent.redraw false))) true).pending_redraw_id = false ∧
    (throttled_redraw (sched_run ⟨false, 0, 0⟩
      (List.replicate 3 (SchedEvent.redraw false))) true).queued = 0 ∧
    (sched_run ⟨false, 0, 0⟩
      [SchedEvent.redraw false, SchedEvent.redraw false, SchedEvent.idleSlot,
       SchedEvent.redraw true]).queued ≤ 1 :=
  redraw_scheduler_coalescing ⟨false, 0, 0⟩ 3
    [SchedEvent.redraw false, SchedEvent.redraw false, SchedEvent.idleSlot,
     SchedEvent.redraw true]
    ⟨rfl, rfl⟩ (by norm_num)

end GraphingCalculator
